/-
Verification of the EuraliOS repository fragment: the monotonic clock
(kernel/src/time.rs), the scheduler and thread creation (src/process.rs), and
the filesystem client library (euralios_std/src/fs.rs).

Shallow embedding conventions:
  * u64 / usize values are modelled as `Nat`; the code itself documents
    wraparound as out of scope ("This will overflow in about 9 years"), and
    the subtraction `time_stamp_counter() - LAST_TSC` is passed in as the
    elapsed-TSC parameter.
  * Rust operations that can panic (division by a runtime-zero divisor,
    out-of-bounds slice indexing) are embedded as `Option`, with `none`
    standing for the panic.
  * Loads of the atomic statics PIT_TICKS / LAST_TSC / TSC_PER_PIT and of the
    global RUNNING_QUEUE / CURRENT_THREAD become explicit parameters and an
    explicit state record.
-/
import Mathlib

namespace EuraliOS

/-! ## kernel/src/time.rs -/

/-- The Programmable Interrupt Timer frequency divider (time.rs line 6). -/
def PIT_TICKS_PER_INTERRUPT : Nat := 65536

/-- Fixed-point scale used by `microseconds_monotonic` (time.rs line 74). -/
def scaled_tsc_rate : Nat := 32

/-- Rust `u64` division: panics (`none`) when the divisor is zero. -/
def checked_div (a b : Nat) : Option Nat :=
  if b = 0 then none else some (a / b)

/-- Embedding of `microseconds_monotonic` (time.rs lines 51-79).

The three atomic loads become parameters: `pit` is the loaded `PIT_TICKS`,
`tsc` is `time_stamp_counter() - LAST_TSC` (the elapsed TSC since the last PIT
interrupt), and `tsc_per_pit` is the loaded `TSC_PER_PIT`.  The source divides
`(tsc * scaled_tsc_rate) / tsc_per_pit` with no zero guard, so the embedding
returns `none` (a Rust panic) when `tsc_per_pit = 0`.  The divisors in the
final expression are nonzero literals and cannot panic. -/
def microseconds_monotonic (pit tsc tsc_per_pit : Nat) : Option Nat :=
  match checked_div (tsc * scaled_tsc_rate) tsc_per_pit with
  | none => none
  | some scaled_tsc =>
      some (((((pit * scaled_tsc_rate + scaled_tsc) * 2011) / 1024) * 437)
              / (1024 * scaled_tsc_rate))

/-- The clock formula as written in the spec (section 4.1): transcribed from
the spec's words, to be compared with `microseconds_monotonic` which is
transcribed from the source. -/
def spec_clock_formula (pit tsc tsc_per_pit : Nat) : Nat :=
  ((pit * 32 + (tsc * 32) / tsc_per_pit) * 2011 / 1024) * 437 / (1024 * 32)

/-! ## src/process.rs -/

/-- Size of the kernel stack for each process, in bytes (process.rs line 26). -/
def KERNEL_STACK_SIZE : Nat := 4096 * 2

/-- Size of the user stack for each user process, in bytes (process.rs line 29). -/
def USER_STACK_SIZE : Nat := 4096 * 5

/-- Per-thread state (process.rs lines 54-82).  The heap-owned `Vec<u8>`
stacks are modelled by the virtual address of their first byte
(`kernel_stack.as_ptr()` / `user_stack.as_ptr()`); the byte contents,
including the `Context` written through raw pointers, are memory
representation and stay outside the model. -/
structure Thread where
  tid : Nat
  page_table_physaddr : Nat
  kernel_stack_start : Nat
  kernel_stack_end : Nat
  context : Nat
  user_stack_start : Nat
  deriving Repr, DecidableEq

/-- The scheduler's global mutable state: the `RUNNING_QUEUE` deque (front at
the list head, `push_back` appends) and the `CURRENT_THREAD` slot
(process.rs lines 31-42). -/
structure ProcState where
  running_queue : List Thread
  current_thread : Option Thread
  deriving Repr, DecidableEq

/-- Modelled from the spec: the physical-memory and page-table interface
(`create_kernel_only_pagetable`, `switch_to_pagetable`,
`active_pagetable_physaddr`) is declared out of scope ("Physical memory
allocation and page-table construction"), so its state is modelled as the
currently active page-table root plus a bump allocator of fresh physical
frame addresses. -/
structure MemState where
  active_pagetable : Nat
  next_frame : Nat
  created : List Nat
  deriving Repr, DecidableEq

/-- Modelled from the spec: `memory::create_kernel_only_pagetable` returns a
pointer/physical-address pair for a freshly allocated page-table root; the
model hands out the next free frame address. -/
def create_kernel_only_pagetable (mem : MemState) : Nat × MemState :=
  (mem.next_frame,
   { mem with next_frame := mem.next_frame + 1,
              created := mem.created ++ [mem.next_frame] })

/-- Modelled from the spec: `memory::active_pagetable_physaddr` reads the
physical address of the currently active page table (CR3). -/
def active_pagetable_physaddr (mem : MemState) : Nat := mem.active_pagetable

/-- Modelled from the spec: `memory::switch_to_pagetable` makes the given
page table active. -/
def switch_to_pagetable (pt : Nat) (mem : MemState) : MemState :=
  { mem with active_pagetable := pt }

/-- Embedding of `new_kernel_thread` (process.rs lines 125-178).

External inputs become parameters: `ics` is `INTERRUPT_CONTEXT_SIZE` (defined
in the out-of-scope interrupts module), `ksStart` / `usStart` are the
addresses the allocator picked for the kernel and user stack `Vec`s, and
`fnPtr` is the entry-point function pointer.  The writes into the `Context`
struct at the top of the kernel stack (rip, rflags, cs, rsp: lines 148-167)
target the stack bytes and are outside the model.  Returns the new thread's
tid together with the updated scheduler state. -/
def new_kernel_thread (ics ksStart usStart _fnPtr : Nat) (ps : ProcState) :
    Nat × ProcState :=
  let kernel_stack_end := ksStart + KERNEL_STACK_SIZE
  let new_thread : Thread :=
    { tid := 0
      page_table_physaddr := 0
      kernel_stack_start := ksStart
      kernel_stack_end := kernel_stack_end
      context := kernel_stack_end - ics
      user_stack_start := usStart }
  let tid := new_thread.tid
  (tid, { ps with running_queue := ps.running_queue ++ [new_thread] })

/-- A loadable ELF segment as seen through the out-of-scope `object` crate:
`segment.address()` and the fallible `segment.data()`. -/
structure Segment where
  address : Nat
  data : Option (List Nat)
  deriving Repr, DecidableEq

/-- The result of `object::File::parse`: entry point and segments. -/
structure ElfObj where
  entry : Nat
  segments : List Segment
  deriving Repr, DecidableEq

/-- An input binary: its raw bytes (used for the magic check) together with
the out-of-scope parser's verdict on it. -/
structure ElfBinary where
  bytes : List Nat
  parsed : Option ElfObj
  deriving Repr, DecidableEq

/-- The ELF magic `[0x7f, b'E', b'L', b'F']` (process.rs line 182). -/
def ELF_MAGIC : List Nat := [0x7f, 0x45, 0x4c, 0x46]

/-- The segment loop of `new_user_thread` (process.rs lines 207-239): each
segment with readable data is allocated and copied (the `allocate_pages`
call and the byte copy affect only the new user mapping, outside the model);
the first segment whose `data()` fails aborts with the error message. -/
def load_segments : List Segment → Except String Unit
  | [] => .ok ()
  | seg :: rest =>
      match seg.data with
      | some _ => load_segments rest
      | none => .error "Could not get segment data"

/-- Embedding of `new_user_thread` (process.rs lines 180-299).

`bin[0..4]` on a slice shorter than four bytes is an out-of-bounds slice
index, a Rust panic: the whole result is `none` in that case.  Otherwise the
result carries the source's `Result<usize, &str>` together with the updated
scheduler and memory state.  As in `new_kernel_thread`, `ics` and `ksStart`
stand for `INTERRUPT_CONTEXT_SIZE` and the kernel-stack allocation address;
the user stack is `Vec::new()` (line 258), modelled as address 0.  The
`Context` writes and the user-stack `allocate_pages` at `USER_STACK_START`
(lines 262-286) touch only memory contents outside the model. -/
def new_user_thread (ics ksStart : Nat) (bin : ElfBinary)
    (ps : ProcState) (mem : MemState) :
    Option (Except String Nat) × ProcState × MemState :=
  if bin.bytes.length < 4 then
    (none, ps, mem)
  else if bin.bytes.take 4 ≠ ELF_MAGIC then
    (some (.error "Expected ELF binary"), ps, mem)
  else
    match bin.parsed with
    | some obj =>
        let alloc := create_kernel_only_pagetable mem
        let user_page_table_physaddr := alloc.1
        let mem1 := alloc.2
        let original_page_table := active_pagetable_physaddr mem1
        let mem2 := switch_to_pagetable user_page_table_physaddr mem1
        match load_segments obj.segments with
        | .error e =>
            (some (.error e), ps, switch_to_pagetable original_page_table mem2)
        | .ok _ =>
            let mem3 := switch_to_pagetable original_page_table mem2
            let kernel_stack_end := ksStart + KERNEL_STACK_SIZE
            let new_thread : Thread :=
              { tid := 0
                page_table_physaddr := user_page_table_physaddr
                kernel_stack_start := ksStart
                kernel_stack_end := kernel_stack_end
                context := kernel_stack_end - ics
                user_stack_start := 0 }
            let tid := new_thread.tid
            (some (.ok tid),
             { ps with running_queue := ps.running_queue ++ [new_thread] },
             mem3)
    | none => (some (.error "Could not parse ELF"), ps, mem)

/-- Embedding of `schedule_next` (process.rs lines 305-351).

`context_addr` is the address of the `Context` the interrupt prologue pushed
(the `context: &Context` argument), `apt` is the value
`memory::active_pagetable_physaddr()` would read.  The
`gdt::set_interrupt_stack_table` call and the conditional
`switch_to_pagetable` act on out-of-scope hardware state.  Returns the value
the function returns (the selected thread's context address, or 0 when no
thread is available) together with the updated scheduler state. -/
def schedule_next (context_addr apt : Nat) (s : ProcState) : Nat × ProcState :=
  let s1 : ProcState :=
    match s.current_thread with
    | some thread =>
        let thread_mut :=
          { thread with context := context_addr, page_table_physaddr := apt }
        { running_queue := s.running_queue ++ [thread_mut],
          current_thread := none }
    | none => s
  match s1.running_queue with
  | [] => (0, { running_queue := [], current_thread := none })
  | t :: rest => (t.context, { running_queue := rest, current_thread := some t })

/-! ## euralios_std/src/fs.rs -/

/-- Message tags (spec section 6 table; the `message` module is not part of
the repository fragment, so the tags are modelled as an enumeration of
distinct values). -/
inductive Tag where
  | OPEN
  | READ
  | WRITE
  | QUERY
  | DATA
  | OK
  | JSON
  | COMM_HANDLE
  | VIDEO_MEMORY
  deriving Repr, DecidableEq

/-- One data slot of a long message (`MessageData`): a plain value, a
memory-page capability, or an endpoint capability.  Handles are modelled by
an identifying number. -/
inductive MessageData where
  | Value : Nat → MessageData
  | MemoryHandle : Nat → MessageData
  | CommHandle : Nat → MessageData
  deriving Repr, DecidableEq

/-- A message: `Short` carries three machine words, `Long` carries a tag and
two data slots (spec section 3). -/
inductive Message where
  | Short : Tag → Nat → Nat → Message
  | Long : Tag → MessageData → MessageData → Message
  deriving Repr, DecidableEq

/-- Modelled from the spec: `SyscallError` values "include at minimum
`InvalidParam`, `NotFound`, `PermissionDenied`, `ChannelClosed`" (the
`syscalls` module is not part of the repository fragment). -/
inductive SyscallError where
  | InvalidParam
  | NotFound
  | PermissionDenied
  | ChannelClosed
  deriving Repr, DecidableEq

/-- Modelled from the spec: `syscalls::SYSCALL_ERROR_PARAM` is the
`InvalidParam` error surfaced on every ill-formed reply. -/
def SYSCALL_ERROR_PARAM : SyscallError := SyscallError.InvalidParam

/-- The value `rcall` gives back to the caller: either the received
`(tag, data1, data2)` triple, or an error paired with the message that
accompanied it (fs.rs matches `Err((err, _message))`). -/
abbrev Reply : Type :=
  Except (SyscallError × Message) (Tag × MessageData × MessageData)

/-- A `File` wraps a `CommHandle` (fs.rs line 22). -/
structure File where
  handle : Nat
  deriving Repr, DecidableEq

/-- The rcall request `File::write` issues (fs.rs lines 84-88): target
handle, `WRITE` tag, the buffer length as a `Value`, and a `MemoryHandle`
holding the copied pages. -/
def File.write_request (f : File) (bufLen pages : Nat) :
    Nat × Tag × MessageData × MessageData :=
  (f.handle, Tag.WRITE, MessageData.Value bufLen, MessageData.MemoryHandle pages)

/-- Embedding of the reply handling of `File::write` (fs.rs lines 82-97).
The blocking `rcall` itself is out of scope (rendezvous primitive); its
result is the `reply` parameter.  Returns the `Result` together with the
(unchanged) `File`. -/
def File.write (f : File) (reply : Reply) : Except SyscallError Nat × File :=
  match reply with
  | .ok (Tag.OK, MessageData.Value sent_length, _) => (.ok sent_length, f)
  | .error (err, _) => (.error err, f)
  | _ => (.error SYSCALL_ERROR_PARAM, f)

/-- A JSON value as exposed by the out-of-scope `serde_json` crate ("JSON
parsing of directory listings is used only as an opaque envelope"). -/
inductive Json where
  | null
  | bool : Bool → Json
  | num : Int → Json
  | str : String → Json
  | arr : List Json → Json
  | obj : List (String × Json) → Json

/-- `serde_json` immutable indexing `value[key]`: field lookup on an object,
`Null` for a missing field or a non-object. -/
def Json.getKey (j : Json) (key : String) : Json :=
  match j with
  | .obj fields =>
      match fields.find? (fun p => p.1 == key) with
      | some p => p.2
      | none => .null
  | _ => .null

/-- `Value::as_str`. -/
def Json.as_str : Json → Option String
  | .str s => some s
  | _ => none

/-- `Value::as_array`. -/
def Json.as_array : Json → Option (List Json)
  | .arr xs => some xs
  | _ => none

/-- A directory entry holding the bare file name (fs.rs lines 120-122). -/
structure DirEntry where
  name : String
  deriving Repr, DecidableEq

/-- The `ReadDir` iterator state: the remaining entries `Vec` (fs.rs
lines 134-136). -/
structure ReadDir where
  entries : List DirEntry
  deriving Repr, DecidableEq

/-- Embedding of `ReadDir::next` (fs.rs lines 141-146): `Vec::pop` removes
and yields the last element; once the vector is empty the iterator returns
`none` and the state no longer changes. -/
def ReadDir.next (rd : ReadDir) :
    Option (Except SyscallError DirEntry) × ReadDir :=
  match rd.entries.getLast? with
  | some entry => (some (.ok entry), { entries := rd.entries.dropLast })
  | none => (none, rd)

/-- Drive `ReadDir.next` for `n` steps, collecting each step's yielded
item. -/
def ReadDir.run : Nat → ReadDir → List (Option (Except SyscallError DirEntry))
  | 0, _ => []
  | n + 1, rd =>
      let step := ReadDir.next rd
      step.1 :: ReadDir.run n step.2

/-- The entry construction of `read_dir` (fs.rs lines 155-163), starting from
the parsed JSON value the `QUERY` rcall produced: the `"files"` array is
mapped to `DirEntry` values whose name is the element's string `"name"`
field, with `"_bad_"` substituted by `unwrap_or` when the field is absent or
not a string; any other shape yields no entries. -/
def read_dir_entries (v : Json) : List DirEntry :=
  match (v.getKey "files").as_array with
  | some vec =>
      vec.map (fun o => { name := ((o.getKey "name").as_str).getD "_bad_" })
  | none => []

/-! ## Theorems about the monotonic clock -/

/-- C1: consecutive calls to `microseconds_monotonic` never decrease: when the
second call observes a `pit_ticks` value and an elapsed-TSC value at least as
large as the first call's, and `tsc_per_pit` is positive, the second call's
return value is at least the first call's. -/
theorem microseconds_monotonic_nondecreasing
    (pit1 tsc1 pit2 tsc2 tsc_per_pit v1 v2 : Nat)
    (hr : 0 < tsc_per_pit) (hp : pit1 ≤ pit2) (ht : tsc1 ≤ tsc2)
    (h1 : microseconds_monotonic pit1 tsc1 tsc_per_pit = some v1)
    (h2 : microseconds_monotonic pit2 tsc2 tsc_per_pit = some v2) :
    v1 ≤ v2 := by
  have hz : tsc_per_pit ≠ 0 := Nat.pos_iff_ne_zero.mp hr
  simp only [microseconds_monotonic, checked_div, if_neg hz,
             Option.some.injEq] at h1 h2
  subst h1
  subst h2
  gcongr

/-- C1 witness: a concrete pair of observations, one PIT interrupt apart. -/
theorem microseconds_monotonic_nondecreasing_witness : (54925 : Nat) ≤ 109891 :=
  microseconds_monotonic_nondecreasing 65536 0 131072 100000 2048 54925 109891
    (by decide) (by decide) (by decide) (by decide) (by decide)

/-- C3 counterexample: with `tsc_per_pit = 0` (and `pit_ticks = 0`) the call
does not return the PIT-derived component 0; the unguarded division
`(tsc * 32) / tsc_per_pit` divides by zero, a Rust panic (`none`). -/
theorem microseconds_monotonic_div0_cex :
    microseconds_monotonic 0 0 0 = none ∧
      microseconds_monotonic 0 0 0 ≠ some 0 := by
  decide

/-- C3 (amended): whenever `tsc_per_pit` is 0, `microseconds_monotonic` fails
with a division-by-zero panic instead of clamping the TSC term; it never
returns a value in that state. -/
theorem microseconds_monotonic_div0 (pit tsc : Nat) :
    microseconds_monotonic pit tsc 0 = none := by
  simp [microseconds_monotonic, checked_div]

/-- C4: with `tsc_per_pit > 0` the function returns exactly the spec's
integer-division formula, the scaled TSC fragment being divided by
`tsc_per_pit` before it is added to the PIT term. -/
theorem microseconds_monotonic_eq_spec (pit tsc tsc_per_pit : Nat)
    (hr : 0 < tsc_per_pit) :
    microseconds_monotonic pit tsc tsc_per_pit
      = some (spec_clock_formula pit tsc tsc_per_pit) := by
  have hz : tsc_per_pit ≠ 0 := Nat.pos_iff_ne_zero.mp hr
  simp [microseconds_monotonic, checked_div, if_neg hz, spec_clock_formula,
        scaled_tsc_rate]

/-- C4 witness: the formula agreement at a concrete observation. -/
theorem microseconds_monotonic_eq_spec_witness :
    microseconds_monotonic 65536 100 2000 = some (spec_clock_formula 65536 100 2000) :=
  microseconds_monotonic_eq_spec 65536 100 2000 (by decide)

/-! ## Theorems about the scheduler -/

/-- The invariant named by the spec: a thread's stored context address lies
within its kernel stack region. -/
def context_in_stack (t : Thread) : Prop :=
  t.kernel_stack_start ≤ t.context ∧ t.context < t.kernel_stack_end

instance (t : Thread) : Decidable (context_in_stack t) :=
  inferInstanceAs (Decidable (_ ∧ _))

/-- C2: provided every queued thread's stored context address lies in its
kernel stack region, and the context pushed by the interrupt prologue lies in
the current thread's kernel stack region, `schedule_next` returns the selected
thread's stored context address, which lies within that thread's kernel stack
region; when no thread is available it returns 0. -/
theorem schedule_next_returns_context (ctx apt : Nat) (s : ProcState)
    (hq : ∀ t ∈ s.running_queue, context_in_stack t)
    (hc : ∀ t, s.current_thread = some t →
      t.kernel_stack_start ≤ ctx ∧ ctx < t.kernel_stack_end) :
    (∀ t, (schedule_next ctx apt s).2.current_thread = some t →
        (schedule_next ctx apt s).1 = t.context ∧ context_in_stack t) ∧
    ((schedule_next ctx apt s).2.current_thread = none →
        (schedule_next ctx apt s).1 = 0) := by
  obtain ⟨q, cur⟩ := s
  cases cur with
  | none =>
      cases q with
      | nil => simp [schedule_next]
      | cons t rest =>
          have hmem := hq t (by simp)
          constructor
          · intro t' ht'
            simp [schedule_next] at ht'
            subst ht'
            exact ⟨rfl, hmem⟩
          · intro hnone
            simp [schedule_next] at hnone
  | some c =>
      have hcin := hc c rfl
      cases q with
      | nil =>
          constructor
          · intro t' ht'
            simp [schedule_next] at ht'
            subst ht'
            exact ⟨rfl, ⟨hcin.1, hcin.2⟩⟩
          · intro hnone
            simp [schedule_next] at hnone
      | cons t rest =>
          have hmem := hq t (by simp)
          constructor
          · intro t' ht'
            simp [schedule_next] at ht'
            subst ht'
            exact ⟨rfl, hmem⟩
          · intro hnone
            simp [schedule_next] at hnone

/-- C2 witness: a concrete one-thread queue; the returned address is the
queued thread's stored context address. -/
theorem schedule_next_returns_context_witness :
    (schedule_next 123 0 ⟨[⟨0, 0, 4096, 12288, 12128, 0⟩], none⟩).1 = 12128 := by
  have h := schedule_next_returns_context 123 0
    ⟨[⟨0, 0, 4096, 12288, 12128, 0⟩], none⟩ (by decide) (by simp)
  exact (h.1 ⟨0, 0, 4096, 12288, 12128, 0⟩ (by decide)).1

/-- C10: when the runnable queue is empty but a current thread exists, that
thread is re-enqueued and immediately re-selected, and `schedule_next` returns
its (just updated) context address, which is nonzero; `schedule_next` returns
0 exactly when the current-thread slot and the runnable queue are both
empty. -/
theorem schedule_next_empty_queue (ctx apt : Nat) (s : ProcState)
    (hctx : ctx ≠ 0)
    (hq : ∀ t ∈ s.running_queue, t.context ≠ 0) :
    (∀ t, s.current_thread = some t → s.running_queue = [] →
       (schedule_next ctx apt s).2.current_thread
           = some { t with context := ctx, page_table_physaddr := apt } ∧
       (schedule_next ctx apt s).1 = ctx ∧
       (schedule_next ctx apt s).1 ≠ 0) ∧
    ((schedule_next ctx apt s).1 = 0 ↔
       s.current_thread = none ∧ s.running_queue = []) := by
  obtain ⟨q, cur⟩ := s
  cases cur with
  | none =>
      cases q with
      | nil => simp [schedule_next]
      | cons t rest =>
          have hmem := hq t (by simp)
          simp [schedule_next, hmem]
  | some c =>
      cases q with
      | nil => simp [schedule_next, hctx]
      | cons t rest =>
          have hmem := hq t (by simp)
          simp [schedule_next, hmem]

/-- C10 witness: empty queue, one current thread; the thread is re-selected
with its context updated to the pushed context address 555 and the saved
active page table 77. -/
theorem schedule_next_empty_queue_witness :
    (schedule_next 555 77 ⟨[], some ⟨0, 0, 4096, 12288, 12128, 0⟩⟩).2.current_thread
        = some ⟨0, 77, 4096, 12288, 555, 0⟩ ∧
    (schedule_next 555 77 ⟨[], some ⟨0, 0, 4096, 12288, 12128, 0⟩⟩).1 = 555 := by
  have h := schedule_next_empty_queue 555 77
    ⟨[], some ⟨0, 0, 4096, 12288, 12128, 0⟩⟩ (by decide) (by simp)
  have h2 := h.1 ⟨0, 0, 4096, 12288, 12128, 0⟩ rfl rfl
  exact ⟨h2.1, h2.2.1⟩

/-! ## Theorems about thread creation -/

/-- C5: when `new_user_thread` succeeds, the created (enqueued) thread's
`page_table_physaddr` is nonzero and distinct from every other thread's, and
on every return path the active page table on return equals the active page
table on entry.  The freshness hypotheses are the allocator invariant: every
existing thread's page-table address was handed out earlier, so it is below
the allocator's next free frame, which is nonzero. -/
theorem new_user_thread_pagetable (ics ksStart : Nat) (bin : ElfBinary)
    (ps : ProcState) (mem : MemState)
    (hpos : 0 < mem.next_frame)
    (hothers : ∀ t ∈ ps.running_queue, t.page_table_physaddr < mem.next_frame)
    (hcur : ∀ t, ps.current_thread = some t →
        t.page_table_physaddr < mem.next_frame) :
    ((new_user_thread ics ksStart bin ps mem).2.2.active_pagetable
        = mem.active_pagetable) ∧
    (∀ r, (new_user_thread ics ksStart bin ps mem).1 = some (.ok r) →
       ∃ t, (new_user_thread ics ksStart bin ps mem).2.1.running_queue
              = ps.running_queue ++ [t] ∧
            t.page_table_physaddr ≠ 0 ∧
            (∀ u ∈ ps.running_queue,
                u.page_table_physaddr ≠ t.page_table_physaddr) ∧
            (∀ u, ps.current_thread = some u →
                u.page_table_physaddr ≠ t.page_table_physaddr)) := by
  unfold new_user_thread
  split
  · exact ⟨rfl, by intro r hr; simp at hr⟩
  · split
    · exact ⟨rfl, by intro r hr; simp at hr⟩
    · split
      · rename_i obj heq
        split
        · exact ⟨by simp [switch_to_pagetable, active_pagetable_physaddr,
                          create_kernel_only_pagetable],
                 by intro r hr; simp at hr⟩
        · constructor
          · simp [switch_to_pagetable, active_pagetable_physaddr,
                  create_kernel_only_pagetable]
          · intro r hr
            refine ⟨_, rfl, ?_, ?_, ?_⟩
            · simp [create_kernel_only_pagetable]
              omega
            · intro u hu
              have := hothers u hu
              simp [create_kernel_only_pagetable]
              omega
            · intro u hu
              have := hcur u hu
              simp [create_kernel_only_pagetable]
              omega
      · exact ⟨rfl, by intro r hr; simp at hr⟩

/-- A well-formed example binary: correct magic, one loadable segment with
readable data. -/
def binEx : ElfBinary :=
  { bytes := [0x7f, 0x45, 0x4c, 0x46]
    parsed := some { entry := 0x400000
                     segments := [{ address := 0x400000
                                    data := some [0x90, 0x90, 0xC3] }] } }

/-- Example scheduler state: one existing user thread owning page table 5. -/
def psEx : ProcState :=
  { running_queue := [⟨0, 5, 4096, 12288, 12128, 0⟩], current_thread := none }

/-- Example memory state: page table 3 active, next free frame 7. -/
def memEx : MemState := { active_pagetable := 3, next_frame := 7, created := [] }

/-- C5 witness: loading `binEx` in state `memEx` leaves page table 3 active
and enqueues a thread whose fresh page table differs from the existing
thread's. -/
theorem new_user_thread_pagetable_witness :
    ((new_user_thread 160 4096 binEx psEx memEx).2.2.active_pagetable
        = memEx.active_pagetable) ∧
    (∃ t, (new_user_thread 160 4096 binEx psEx memEx).2.1.running_queue
            = psEx.running_queue ++ [t] ∧
          t.page_table_physaddr ≠ 0 ∧
          (∀ u ∈ psEx.running_queue,
              u.page_table_physaddr ≠ t.page_table_physaddr) ∧
          (∀ u, psEx.current_thread = some u →
              u.page_table_physaddr ≠ t.page_table_physaddr)) := by
  have h := new_user_thread_pagetable 160 4096 binEx psEx memEx (by decide)
    (by decide) (by simp [psEx])
  exact ⟨h.1, h.2 0 rfl⟩

/-- C6 counterexample: a two-byte input slice does not produce the BadElf
error; `bin[0..4]` is an out-of-bounds slice index, a Rust panic (`none`). -/
theorem new_user_thread_short_slice_cex :
    (new_user_thread 160 4096 ⟨[0x7f, 0x45], none⟩ ⟨[], none⟩ ⟨0, 1, []⟩).1
        = none ∧
    (new_user_thread 160 4096 ⟨[0x7f, 0x45], none⟩ ⟨[], none⟩ ⟨0, 1, []⟩).1
        ≠ some (.error "Expected ELF binary") := by
  constructor
  · rfl
  · intro h
    exact Option.noConfusion h

/-- C6 (amended): for every input of at least four bytes whose first four
bytes are not the ELF magic, `new_user_thread` returns the BadElf error
("Expected ELF binary") and leaves the scheduler and memory state untouched:
no page table is created or switched.  Inputs shorter than four bytes instead
panic on the out-of-bounds slice `bin[0..4]`. -/
theorem new_user_thread_bad_magic (ics ksStart : Nat) (bin : ElfBinary)
    (ps : ProcState) (mem : MemState)
    (hlen : 4 ≤ bin.bytes.length)
    (hmagic : bin.bytes.take 4 ≠ ELF_MAGIC) :
    new_user_thread ics ksStart bin ps mem
      = (some (.error "Expected ELF binary"), ps, mem) := by
  unfold new_user_thread
  rw [if_neg (by omega), if_pos hmagic]

/-- C6 witness: four non-magic bytes yield the BadElf error with unchanged
state. -/
theorem new_user_thread_bad_magic_witness :
    new_user_thread 160 4096 ⟨[1, 2, 3, 4], none⟩ ⟨[], none⟩ ⟨0, 1, []⟩
      = (some (.error "Expected ELF binary"), ⟨[], none⟩, ⟨0, 1, []⟩) :=
  new_user_thread_bad_magic 160 4096 ⟨[1, 2, 3, 4], none⟩ ⟨[], none⟩ ⟨0, 1, []⟩
    (by decide) (by decide)

/-- C9 counterexample: `new_kernel_thread` enqueues a thread whose tid is 0 —
the reserved "unassigned" value, not a positive identifier — and returns 0. -/
theorem new_kernel_thread_tid_zero_cex :
    ((new_kernel_thread 160 4096 16384 0 ⟨[], none⟩).2.running_queue.map
        Thread.tid = [0]) ∧
    ¬ (∀ t ∈ (new_kernel_thread 160 4096 16384 0 ⟨[], none⟩).2.running_queue,
        0 < t.tid) ∧
    (new_kernel_thread 160 4096 16384 0 ⟨[], none⟩).1 = 0 := by
  decide

/-- C9 (amended): both creation paths enqueue exactly one new thread whose
tid is the unassigned value 0, and each function returns that thread's tid;
unique positive TID assignment is left to a later pass. -/
theorem new_thread_tid_unassigned (ics ksStart usStart fnPtr ksStart2 : Nat)
    (bin : ElfBinary) (ps ps2 : ProcState) (mem : MemState) :
    (∃ t, (new_kernel_thread ics ksStart usStart fnPtr ps).2.running_queue
            = ps.running_queue ++ [t] ∧ t.tid = 0 ∧
          (new_kernel_thread ics ksStart usStart fnPtr ps).1 = t.tid) ∧
    (∀ r, (new_user_thread ics ksStart2 bin ps2 mem).1 = some (.ok r) →
       ∃ t, (new_user_thread ics ksStart2 bin ps2 mem).2.1.running_queue
              = ps2.running_queue ++ [t] ∧ t.tid = 0 ∧ r = t.tid) := by
  constructor
  · exact ⟨_, rfl, rfl, rfl⟩
  · unfold new_user_thread
    split
    · intro r hr; simp at hr
    · split
      · intro r hr; simp at hr
      · split
        · split
          · intro r hr; simp at hr
          · intro r hr
            simp only [Option.some.injEq] at hr
            refine ⟨_, rfl, rfl, ?_⟩
            cases hr
            rfl
        · intro r hr; simp at hr

/-- C9 (amended) witness: kernel-thread creation enqueues a tid-0 thread and
returns 0; so does user-thread creation on `binEx`. -/
theorem new_thread_tid_unassigned_witness :
    (∃ t, (new_kernel_thread 160 4096 16384 0 ⟨[], none⟩).2.running_queue
            = [] ++ [t] ∧ t.tid = 0 ∧
          (new_kernel_thread 160 4096 16384 0 ⟨[], none⟩).1 = t.tid) ∧
    (∃ t, (new_user_thread 160 4096 binEx psEx memEx).2.1.running_queue
            = psEx.running_queue ++ [t] ∧ t.tid = 0 ∧ 0 = t.tid) := by
  have h := new_thread_tid_unassigned 160 4096 16384 0 4096 binEx ⟨[], none⟩
    psEx memEx
  exact ⟨h.1, h.2 0 rfl⟩

/-! ## Theorems about the filesystem client library -/

/-- C7: `File::write` returns `Ok(sent)` exactly on an `(OK, Value(sent), _)`
reply, propagates an error reply verbatim, and surfaces `InvalidParam` on
every other reply shape (for example a `DATA` reply); in all cases the `File`
handle is unchanged. -/
theorem file_write_reply_cases (f : File) (reply : Reply) :
    (∀ sent d2, reply = .ok (Tag.OK, MessageData.Value sent, d2) →
        File.write f reply = (.ok sent, f)) ∧
    (∀ err m, reply = .error (err, m) →
        File.write f reply = (.error err, f)) ∧
    ((∀ sent d2, reply ≠ .ok (Tag.OK, MessageData.Value sent, d2)) →
     (∀ err m, reply ≠ .error (err, m)) →
        File.write f reply = (.error SyscallError.InvalidParam, f)) := by
  refine ⟨?_, ?_, ?_⟩
  · intro sent d2 h
    subst h
    rfl
  · intro err m h
    subst h
    rfl
  · intro hok herr
    match reply with
    | .error (e, m) => exact absurd rfl (herr e m)
    | .ok (tag, d1, d2) =>
        cases tag <;> cases d1 <;> first
          | exact absurd rfl (hok _ d2)
          | rfl

/-- C7 witness: a server answering a `WRITE` with a `DATA` reply makes
`File::write` return `InvalidParam` with the handle unchanged. -/
theorem file_write_reply_cases_witness :
    File.write ⟨7⟩ (.ok (Tag.DATA, MessageData.Value 3, MessageData.Value 0))
      = (.error SyscallError.InvalidParam, ⟨7⟩) := by
  have h := file_write_reply_cases ⟨7⟩
    (.ok (Tag.DATA, MessageData.Value 3, MessageData.Value 0))
  exact h.2.2 (by simp) (by simp)

/-- Running the iterator from a vector of entries yields the entries from the
back, one per step, then `none` at every further step. -/
theorem readdir_run_eq (l : List DirEntry) (k : Nat) :
    ReadDir.run (l.length + k) ⟨l⟩
      = l.reverse.map (fun e => some (Except.ok e)) ++ List.replicate k none := by
  induction l using List.reverseRecOn generalizing k with
  | nil =>
      induction k with
      | zero => rfl
      | succ n ih =>
          simpa [ReadDir.run, ReadDir.next, List.replicate_succ] using ih
  | append_singleton l e ih =>
      have h1 : (l ++ [e]).length + k = (l.length + k) + 1 := by
        simp [List.length_append]
        omega
      have hnext : ReadDir.next ⟨l ++ [e]⟩ = (some (.ok e), ⟨l⟩) := by
        simp [ReadDir.next, List.getLast?_concat, List.dropLast_concat]
      rw [h1]
      simp [ReadDir.run, hnext, ih k, List.reverse_append]

/-- C8: when the query reply's JSON value carries a `"files"` array, each
array element contributes one `DirEntry` named by its string `"name"` field
(`"_bad_"` when absent or not a string), and the iterator yields exactly those
entries in reverse insertion order, after which it returns `none` at every
step: it cannot be restarted. -/
theorem read_dir_entries_spec (v : Json) (files : List Json)
    (h : (v.getKey "files").as_array = some files) :
    read_dir_entries v
      = files.map
          (fun o => { name := ((o.getKey "name").as_str).getD "_bad_" }) ∧
    (∀ k : Nat,
      ReadDir.run ((read_dir_entries v).length + k) ⟨read_dir_entries v⟩
        = (read_dir_entries v).reverse.map (fun e => some (Except.ok e))
            ++ List.replicate k none) := by
  constructor
  · simp [read_dir_entries, h]
  · intro k
    exact readdir_run_eq (read_dir_entries v) k

/-- Example directory-listing JSON: two entries, the second without a string
`"name"` field. -/
def jsonEx : Json :=
  .obj [("files", .arr [.obj [("name", .str "a")], .obj [("size", .num 3)]]),
        ("other", .null)]

/-- The `"files"` array of `jsonEx`. -/
def filesEx : List Json := [.obj [("name", .str "a")], .obj [("size", .num 3)]]

/-- C8 witness: on `jsonEx` the entries are "a" and "_bad_", and two extra
iterator steps past the end both yield `none`. -/
theorem read_dir_entries_spec_witness :
    read_dir_entries jsonEx
      = filesEx.map
          (fun o => { name := ((o.getKey "name").as_str).getD "_bad_" }) ∧
    ReadDir.run ((read_dir_entries jsonEx).length + 2) ⟨read_dir_entries jsonEx⟩
      = (read_dir_entries jsonEx).reverse.map (fun e => some (Except.ok e))
          ++ List.replicate 2 none :=
  ⟨(read_dir_entries_spec jsonEx filesEx rfl).1,
   (read_dir_entries_spec jsonEx filesEx rfl).2 2⟩

end EuraliOS
